import Mathlib

/-
Verification of the vote-casting/withdrawal engine of RoadmapNextjsBackend.

The engine lives in two Next.js route handlers:
  * src/app/api/features/[id]/vote/route.ts           (POST = cast, DELETE = withdraw)
  * src/app/api/features/[id]/vote/[userId]/route.ts  (GET = status)
backed by a Prisma/PostgreSQL store with tables `features` and `voted_users`.

The store is modelled as explicit lists of rows.  Store-level constraints
(primary keys on `features.id` and `voted_users.id`, and the UNIQUE
(user_uuid, feature_id) index) are part of the store model: an insert that
violates one of them makes the enclosing transaction fail, and Prisma's
`update` on a missing record (error P2025) likewise aborts and rolls back
the transaction; the route's catch block then answers 500 INTERNAL_ERROR.
schema.prisma itself is not among the provided sources; the constraints are
modelled from the spec's data-model section and the repository's CLAUDE.md
table descriptions (UNIQUE (user_uuid, feature_id), UUID primary keys).

Timestamps are modelled as natural numbers; the server-assigned `createdAt`
of a new vote and the Prisma-generated row id are passed to `cast` as
parameters (they are produced by the store / id generator at insert time).
The automatic touching of `features.updated_at` is irrelevant to every
claim and is not modelled.
-/

/-- Hexadecimal digit test, as in the character class [0-9a-fA-F] of the
zod v4 uuid pattern. -/
def isHexDigit (c : Char) : Bool :=
  c.isDigit || ('a' ≤ c && c ≤ 'f') || ('A' ≤ c && c ≤ 'F')

/-- Split a character list at every dash, keeping (possibly empty) groups. -/
def splitDash : List Char → List Char → List (List Char)
  | [], acc => [acc.reverse]
  | '-' :: rest, acc => acc.reverse :: splitDash rest []
  | c :: rest, acc => splitDash rest (c :: acc)

/-- Variant nibble test: [89abAB], as in the zod v4 uuid pattern. -/
def isUuidVariant (c : Char) : Bool :=
  c == '8' || c == '9' || c == 'a' || c == 'b' || c == 'A' || c == 'B'

/-- Version nibble test: [1-8], as in the zod v4 uuid pattern. -/
def isUuidVersion (c : Char) : Bool :=
  '1' ≤ c && c ≤ '8'

/-- Modelled from `UuidSchema = z.uuid("Invalid UUID format")` in
src/types (part_002).  zod v4's `z.uuid()` accepts the RFC 9562 shape
8-4-4-4-12 hex with version nibble 1-8 and variant nibble [89abAB], plus
the all-zero nil UUID and the all-f max UUID. -/
def isValidUuid (s : String) : Bool :=
  s == "00000000-0000-0000-0000-000000000000" ||
  s == "ffffffff-ffff-ffff-ffff-ffffffffffff" ||
  (match splitDash s.data [] with
   | [a, b, c, d, e] =>
     a.length == 8 && b.length == 4 && c.length == 4 && d.length == 4 &&
     e.length == 12 &&
     a.all isHexDigit && b.all isHexDigit && e.all isHexDigit &&
     (match c with
      | v :: cRest => isUuidVersion v && cRest.all isHexDigit
      | [] => false) &&
     (match d with
      | w :: dRest => isUuidVariant w && dRest.all isHexDigit
      | [] => false)
   | _ => false)

/-- A row of the `features` table (Prisma model Feature). -/
structure Feature where
  id : String
  title : String
  description : String
  status : String
  appVersion : Option String
  voteCount : Int
  createdAt : Nat
  updatedAt : Nat
deriving DecidableEq

/-- A row of the `voted_users` table (Prisma model VotedUser): the vote
ledger entry. -/
structure VotedUser where
  id : String
  userUuid : String
  featureId : String
  createdAt : Nat
deriving DecidableEq

/-- The relational store: the two tables the vote engine touches. -/
structure DB where
  features : List Feature
  votes : List VotedUser
deriving DecidableEq

/-- prisma.feature.findUnique({ where: { id } }). -/
def findFeature (db : DB) (featureId : String) : Option Feature :=
  db.features.find? (fun ft => ft.id == featureId)

/-- prisma.votedUser.findUnique({ where: { userUuid_featureId } }):
lookup on the compound unique key. -/
def findVote (db : DB) (userUuid featureId : String) : Option VotedUser :=
  db.votes.find? (fun v => v.userUuid == userUuid && v.featureId == featureId)

/-- tx.feature.update({ data: { voteCount: { increment: 1 } } }) applied to
the features table. -/
def incrementVoteCount (featureId : String) (fs : List Feature) : List Feature :=
  fs.map (fun ft => if ft.id == featureId then { ft with voteCount := ft.voteCount + 1 } else ft)

/-- tx.feature.update({ data: { voteCount: { decrement: 1 } } }) applied to
the features table. -/
def decrementVoteCount (featureId : String) (fs : List Feature) : List Feature :=
  fs.map (fun ft => if ft.id == featureId then { ft with voteCount := ft.voteCount - 1 } else ft)

/-- Number of ledger entries referencing a feature. -/
def votesFor (db : DB) (featureId : String) : Nat :=
  (db.votes.filter (fun v => v.featureId == featureId)).length

/-- Number of ledger entries for a (userUuid, featureId) pair. -/
def pairVotes (db : DB) (userUuid featureId : String) : Nat :=
  (db.votes.filter (fun v => v.userUuid == userUuid && v.featureId == featureId)).length

/-- The cached voteCount of a feature, when the feature exists. -/
def featureCount (db : DB) (featureId : String) : Option Int :=
  (findFeature db featureId).map (fun ft => ft.voteCount)

/-- Error codes of the uniform envelope (src/types, part_002). -/
inductive ErrorCode where
  | UNAUTHORIZED
  | FORBIDDEN
  | NOT_FOUND
  | ALREADY_VOTED
  | VOTE_NOT_FOUND
  | VALIDATION_ERROR
  | INTERNAL_ERROR
deriving DecidableEq

/-- Success payload of POST: the created ledger entry's fields. -/
structure VoteData where
  id : String
  userUuid : String
  featureId : String
  createdAt : Nat
deriving DecidableEq

/-- HTTP response of the cast endpoint: status code plus envelope body. -/
inductive CastResponse where
  | ok (status : Nat) (data : VoteData)
  | err (status : Nat) (code : ErrorCode)
deriving DecidableEq

/-- HTTP response of the withdraw endpoint. -/
inductive WithdrawResponse where
  | ok (status : Nat) (message : String)
  | err (status : Nat) (code : ErrorCode)
deriving DecidableEq

/-- Success payload of GET: the VoteStatus record. -/
structure VoteStatus where
  hasVoted : Bool
  votedAt : Option Nat
deriving DecidableEq

/-- HTTP response of the status endpoint. -/
inductive StatusResponse where
  | ok (status : Nat) (data : VoteStatus)
  | err (status : Nat) (code : ErrorCode)
deriving DecidableEq

/-- The prisma.$transaction body of POST (create vote, then increment the
counter), together with the store constraints that can abort it:
a primary-key collision on the new row id or a violation of the
UNIQUE (user_uuid, feature_id) index makes `create` throw P2002, and
`feature.update` on a missing feature throws P2025; any throw rolls the
whole transaction back (result none). -/
def txCastCommit (featureId userUuid newId : String) (now : Nat) (db : DB) : Option DB :=
  if db.votes.any (fun v => v.id == newId) then none
  else if db.votes.any (fun v => v.userUuid == userUuid && v.featureId == featureId) then none
  else if (findFeature db featureId).isNone then none
  else some { db with
              votes := ⟨newId, userUuid, featureId, now⟩ :: db.votes,
              features := incrementVoteCount featureId db.features }

/-- The prisma.$transaction body of DELETE (delete the vote row by id, then
decrement the counter).  `votedUser.delete` on a missing id throws P2025,
and so does `feature.update` on a missing feature; any throw rolls the
whole transaction back (result none). -/
def txWithdrawCommit (featureId voteId : String) (db : DB) : Option DB :=
  if db.votes.all (fun v => !(v.id == voteId)) then none
  else if (findFeature db featureId).isNone then none
  else some { db with
              votes := db.votes.filter (fun v => !(v.id == voteId)),
              features := decrementVoteCount featureId db.features }

namespace VoteRoute

/-- POST /api/features/:id/vote from src/app/api/features/[id]/vote/route.ts,
after authorization and body parsing: validate the uuid, check the feature
exists, pre-check for an existing vote, then run the transaction; a
transaction abort is answered by the catch block with 500 INTERNAL_ERROR. -/
def POST (featureId userUuid newId : String) (now : Nat) (db : DB) : CastResponse × DB :=
  if !(isValidUuid userUuid) then (.err 400 .VALIDATION_ERROR, db)
  else match findFeature db featureId with
    | none => (.err 404 .NOT_FOUND, db)
    | some _ =>
      match findVote db userUuid featureId with
      | some _ => (.err 409 .ALREADY_VOTED, db)
      | none =>
        match txCastCommit featureId userUuid newId now db with
        | some db' => (.ok 201 ⟨newId, userUuid, featureId, now⟩, db')
        | none => (.err 500 .INTERNAL_ERROR, db)

/-- DELETE /api/features/:id/vote from the same file: validate the uuid,
look the vote up, then run the delete/decrement transaction; a transaction
abort is answered by the catch block with 500 INTERNAL_ERROR. -/
def DELETE (featureId userUuid : String) (db : DB) : WithdrawResponse × DB :=
  if !(isValidUuid userUuid) then (.err 400 .VALIDATION_ERROR, db)
  else match findVote db userUuid featureId with
    | none => (.err 404 .VOTE_NOT_FOUND, db)
    | some v =>
      match txWithdrawCommit featureId v.id db with
      | some db' => (.ok 200 "Vote withdrawn successfully", db')
      | none => (.err 500 .INTERNAL_ERROR, db)

end VoteRoute

namespace VoteStatusRoute

/-- GET /api/features/:id/vote/:uuid from
src/app/api/features/[id]/vote/[userId]/route.ts: no validation of the path
parameters, a single ledger lookup, always a 200 success envelope. -/
def GET (featureId userUuid : String) (db : DB) : StatusResponse × DB :=
  let vote := findVote db userUuid featureId
  (.ok 200 ⟨vote.isSome, vote.map (fun v => v.createdAt)⟩, db)

end VoteStatusRoute

/-- Well-formedness of a store state: the primary keys and the unique
(userUuid, featureId) index hold, every stored userUuid passed validation
(cast validates before inserting), and the counter invariant holds. -/
def StoreInv (db : DB) : Prop :=
  (db.features.map (fun ft => ft.id)).Nodup ∧
  (db.votes.map (fun v => v.id)).Nodup ∧
  (db.votes.map (fun v => (v.userUuid, v.featureId))).Nodup ∧
  (∀ v ∈ db.votes, isValidUuid v.userUuid = true) ∧
  (∀ ft ∈ db.features, ft.voteCount = (votesFor db ft.id : Int))

/-- The counter-consistency invariant alone. -/
def consistent (db : DB) : Prop :=
  ∀ ft ∈ db.features, ft.voteCount = (votesFor db ft.id : Int)

/-- A completed engine operation, with the generated id and timestamp a
cast consumes. -/
inductive Op where
  | cast (featureId userUuid newId : String) (now : Nat)
  | withdraw (featureId userUuid : String)

/-- State effect of one completed operation. -/
def applyOp (op : Op) (db : DB) : DB :=
  match op with
  | .cast featureId userUuid newId now => (VoteRoute.POST featureId userUuid newId now db).2
  | .withdraw featureId userUuid => (VoteRoute.DELETE featureId userUuid db).2

/-- State effect of a sequence of completed operations. -/
def applyOps (ops : List Op) (db : DB) : DB :=
  ops.foldl (fun d op => applyOp op d) db

/-
Interleaving model of two concurrent casts for the same (feature, user)
pair.  A cast performs two store accesses that matter for the race: the
pre-check read (findVote) and the transactional commit.  The uuid
validation is pure and the feature-existence read is not affected by the
other cast (casts never create or delete feature rows), so both are kept
outside the interleaved steps: we assume the feature exists and the uuid is
valid for both calls.  Each access runs atomically against the store; a
schedule fixes their order, respecting each call's program order
(pre-check before commit).
-/

/-- The pre-check read of a cast: did this call observe an existing vote
for the pair? -/
def castPre (featureId userUuid : String) (db : DB) : Bool :=
  (findVote db userUuid featureId).isSome

/-- The remainder of a cast after its pre-check: answer 409 if the
pre-check saw a vote, otherwise run the transaction; a rollback (here:
the unique-constraint violation when the other cast committed first) is
answered by the catch block with 500 INTERNAL_ERROR. -/
def castFinish (featureId userUuid newId : String) (now : Nat) (sawVote : Bool)
    (db : DB) : CastResponse × DB :=
  if sawVote then (.err 409 .ALREADY_VOTED, db)
  else match txCastCommit featureId userUuid newId now db with
    | some db' => (.ok 201 ⟨newId, userUuid, featureId, now⟩, db')
    | none => (.err 500 .INTERNAL_ERROR, db)

/-- The six interleavings of the two two-step calls A and B (each letter is
one store access of that call, in program order). -/
inductive Sched where
  | AABB | ABAB | ABBA | BBAA | BABA | BAAB
deriving DecidableEq

/-- Run two concurrent casts for the same (featureId, userUuid) pair under
a given interleaving; call A uses row id idA and timestamp tA, call B uses
idB and tB.  Returns (response of A, response of B, final store). -/
def runTwo (featureId userUuid idA idB : String) (tA tB : Nat) (s : Sched)
    (db : DB) : CastResponse × CastResponse × DB :=
  match s with
  | .AABB =>
    let pa := castPre featureId userUuid db
    let r1 := castFinish featureId userUuid idA tA pa db
    let pb := castPre featureId userUuid r1.2
    let r2 := castFinish featureId userUuid idB tB pb r1.2
    (r1.1, r2.1, r2.2)
  | .ABAB =>
    let pa := castPre featureId userUuid db
    let pb := castPre featureId userUuid db
    let r1 := castFinish featureId userUuid idA tA pa db
    let r2 := castFinish featureId userUuid idB tB pb r1.2
    (r1.1, r2.1, r2.2)
  | .ABBA =>
    let pa := castPre featureId userUuid db
    let pb := castPre featureId userUuid db
    let r2 := castFinish featureId userUuid idB tB pb db
    let r1 := castFinish featureId userUuid idA tA pa r2.2
    (r1.1, r2.1, r1.2)
  | .BBAA =>
    let pb := castPre featureId userUuid db
    let r2 := castFinish featureId userUuid idB tB pb db
    let pa := castPre featureId userUuid r2.2
    let r1 := castFinish featureId userUuid idA tA pa r2.2
    (r1.1, r2.1, r1.2)
  | .BABA =>
    let pb := castPre featureId userUuid db
    let pa := castPre featureId userUuid db
    let r2 := castFinish featureId userUuid idB tB pb db
    let r1 := castFinish featureId userUuid idA tA pa r2.2
    (r1.1, r2.1, r1.2)
  | .BAAB =>
    let pb := castPre featureId userUuid db
    let pa := castPre featureId userUuid db
    let r1 := castFinish featureId userUuid idA tA pa db
    let r2 := castFinish featureId userUuid idB tB pb r1.2
    (r1.1, r2.1, r2.2)

/-- A losing concurrent cast's observable outcome in the code: either the
pre-check answered 409 ALREADY_VOTED, or the store's unique constraint
aborted its transaction and the catch block answered 500 INTERNAL_ERROR. -/
def losing (r : CastResponse) : Prop :=
  r = .err 409 .ALREADY_VOTED ∨ r = .err 500 .INTERNAL_ERROR

/-- Did a cast succeed (201 envelope)? -/
def isOk (r : CastResponse) : Bool :=
  match r with
  | .ok _ _ => true
  | .err _ _ => false

/-- The store state produced by a successful cast transaction. -/
def castState (featureId userUuid newId : String) (now : Nat) (db : DB) : DB :=
  { db with
    votes := ⟨newId, userUuid, featureId, now⟩ :: db.votes,
    features := incrementVoteCount featureId db.features }

/-- The store state produced by a successful withdraw transaction deleting
the vote row voteId. -/
def withdrawState (featureId voteId : String) (db : DB) : DB :=
  { db with
    votes := db.votes.filter (fun v => !(v.id == voteId)),
    features := decrementVoteCount featureId db.features }

lemma pair_any_eq_false {db : DB} {u f : String} (h : findVote db u f = none) :
    db.votes.any (fun v => v.userUuid == u && v.featureId == f) = false := by
  unfold findVote at h
  rw [List.any_eq_false]
  exact fun v hv => List.find?_eq_none.mp h v hv

lemma id_any_eq_false {votes : List VotedUser} {i : String}
    (h : ∀ v ∈ votes, v.id ≠ i) :
    votes.any (fun v => v.id == i) = false := by
  rw [List.any_eq_false]
  intro v hv
  simpa using h v hv

lemma txCastCommit_eq_some {db : DB} {fid u i : String} {t : Nat} {ft : Feature}
    (hfresh : ∀ v ∈ db.votes, v.id ≠ i)
    (hnone : findVote db u fid = none)
    (hf : findFeature db fid = some ft) :
    txCastCommit fid u i t db = some (castState fid u i t db) := by
  unfold txCastCommit
  rw [id_any_eq_false hfresh, pair_any_eq_false hnone, hf]
  rfl

lemma txCastCommit_eq_none_of_vote {db : DB} {fid u i : String} {t : Nat} {v : VotedUser}
    (h : findVote db u fid = some v) :
    txCastCommit fid u i t db = none := by
  unfold findVote at h
  have hv : db.votes.any (fun w => w.userUuid == u && w.featureId == fid) = true := by
    rw [List.any_eq_true]
    have hp := List.find?_some h
    exact ⟨v, List.mem_of_find?_eq_some h, hp⟩
  unfold txCastCommit
  cases hid : db.votes.any (fun w => w.id == i) <;> simp [hid, hv]

lemma findVote_castState_self (db : DB) (fid u i : String) (t : Nat) :
    findVote (castState fid u i t db) u fid = some ⟨i, u, fid, t⟩ := by
  simp [findVote, castState, List.find?_cons]

lemma POST_success_eq {db : DB} {fid u i : String} {t : Nat} {ft : Feature}
    (hval : isValidUuid u = true)
    (hf : findFeature db fid = some ft)
    (hnone : findVote db u fid = none)
    (hfresh : ∀ v ∈ db.votes, v.id ≠ i) :
    VoteRoute.POST fid u i t db = (.ok 201 ⟨i, u, fid, t⟩, castState fid u i t db) := by
  unfold VoteRoute.POST
  rw [hval, hf, hnone, txCastCommit_eq_some hfresh hnone hf]
  rfl

lemma POST_validation_eq {db : DB} {fid u i : String} {t : Nat}
    (hval : isValidUuid u = false) :
    VoteRoute.POST fid u i t db = (.err 400 .VALIDATION_ERROR, db) := by
  unfold VoteRoute.POST
  rw [hval]
  rfl

lemma POST_not_found_eq {db : DB} {fid u i : String} {t : Nat}
    (hval : isValidUuid u = true)
    (hf : findFeature db fid = none) :
    VoteRoute.POST fid u i t db = (.err 404 .NOT_FOUND, db) := by
  unfold VoteRoute.POST
  rw [hval, hf]
  rfl

lemma POST_conflict_eq {db : DB} {fid u i : String} {t : Nat} {ft : Feature} {v : VotedUser}
    (hval : isValidUuid u = true)
    (hf : findFeature db fid = some ft)
    (hv : findVote db u fid = some v) :
    VoteRoute.POST fid u i t db = (.err 409 .ALREADY_VOTED, db) := by
  unfold VoteRoute.POST
  rw [hval, hf, hv]
  rfl

lemma vote_mem_of_findVote {db : DB} {u f : String} {v : VotedUser}
    (h : findVote db u f = some v) :
    v ∈ db.votes ∧ v.userUuid = u ∧ v.featureId = f := by
  unfold findVote at h
  have hp := List.find?_some h
  simp only [Bool.and_eq_true, beq_iff_eq] at hp
  exact ⟨List.mem_of_find?_eq_some h, hp⟩

lemma txWithdrawCommit_eq_some {db : DB} {fid : String} {v : VotedUser} {ft : Feature}
    (hmem : v ∈ db.votes)
    (hf : findFeature db fid = some ft) :
    txWithdrawCommit fid v.id db = some (withdrawState fid v.id db) := by
  have hall : db.votes.all (fun w => !(w.id == v.id)) = false := by
    rw [Bool.eq_false_iff]
    intro hall
    rw [List.all_eq_true] at hall
    simpa using hall v hmem
  unfold txWithdrawCommit
  rw [hall, hf]
  rfl

lemma txWithdrawCommit_eq_none_of_no_feature {db : DB} {fid voteId : String}
    (hf : findFeature db fid = none) :
    txWithdrawCommit fid voteId db = none := by
  unfold txWithdrawCommit
  cases hall : db.votes.all (fun w => !(w.id == voteId)) <;> simp [hall, hf]

lemma DELETE_validation_eq {db : DB} {fid u : String}
    (hval : isValidUuid u = false) :
    VoteRoute.DELETE fid u db = (.err 400 .VALIDATION_ERROR, db) := by
  unfold VoteRoute.DELETE
  rw [hval]
  rfl

lemma DELETE_not_found_eq {db : DB} {fid u : String}
    (hval : isValidUuid u = true)
    (hv : findVote db u fid = none) :
    VoteRoute.DELETE fid u db = (.err 404 .VOTE_NOT_FOUND, db) := by
  unfold VoteRoute.DELETE
  rw [hval, hv]
  rfl

lemma DELETE_success_eq {db : DB} {fid u : String} {v : VotedUser} {ft : Feature}
    (hval : isValidUuid u = true)
    (hv : findVote db u fid = some v)
    (hf : findFeature db fid = some ft) :
    VoteRoute.DELETE fid u db =
      (.ok 200 "Vote withdrawn successfully", withdrawState fid v.id db) := by
  have htx := txWithdrawCommit_eq_some (vote_mem_of_findVote hv).1 hf
  unfold VoteRoute.DELETE
  simp [hval, hv, htx]

lemma DELETE_orphan_eq {db : DB} {fid u : String} {v : VotedUser}
    (hval : isValidUuid u = true)
    (hv : findVote db u fid = some v)
    (hf : findFeature db fid = none) :
    VoteRoute.DELETE fid u db = (.err 500 .INTERNAL_ERROR, db) := by
  have htx := @txWithdrawCommit_eq_none_of_no_feature db fid v.id hf
  unfold VoteRoute.DELETE
  simp [hval, hv, htx]

lemma find?_map_of_id_preserved {f : Feature → Feature}
    (hpres : ∀ ft, (f ft).id = ft.id) (fs : List Feature) (g : String) :
    (fs.map f).find? (fun ft => ft.id == g) =
      (fs.find? (fun ft => ft.id == g)).map f := by
  induction fs with
  | nil => rfl
  | cons ft fs ih =>
    by_cases hg : ft.id = g
    · rw [List.map_cons, List.find?_cons_of_pos _ (by simp [hpres, hg]),
        List.find?_cons_of_pos _ (by simp [hg])]
      rfl
    · rw [List.map_cons, List.find?_cons_of_neg _ (by simp [hpres, hg]),
        List.find?_cons_of_neg _ (by simp [hg]), ih]

lemma find?_incrementVoteCount (fs : List Feature) (fid g : String) :
    (incrementVoteCount fid fs).find? (fun ft => ft.id == g) =
      (fs.find? (fun ft => ft.id == g)).map
        (fun ft => if ft.id == fid then { ft with voteCount := ft.voteCount + 1 } else ft) := by
  exact find?_map_of_id_preserved
    (fun ft => by by_cases hc : ft.id = fid <;> simp [hc]) fs g

lemma find?_decrementVoteCount (fs : List Feature) (fid g : String) :
    (decrementVoteCount fid fs).find? (fun ft => ft.id == g) =
      (fs.find? (fun ft => ft.id == g)).map
        (fun ft => if ft.id == fid then { ft with voteCount := ft.voteCount - 1 } else ft) := by
  exact find?_map_of_id_preserved
    (fun ft => by by_cases hc : ft.id = fid <;> simp [hc]) fs g

lemma featureCount_castState_self {db : DB} {fid : String} {ft : Feature}
    (hf : findFeature db fid = some ft) (u i : String) (t : Nat) :
    featureCount (castState fid u i t db) fid = some (ft.voteCount + 1) := by
  have hid : ft.id = fid := by
    have := List.find?_some hf
    simpa using this
  unfold featureCount findFeature castState
  simp only [find?_incrementVoteCount]
  unfold findFeature at hf
  rw [hf]
  simp [hid]

lemma featureCount_castState_other {db : DB} {fid g : String} (hne : g ≠ fid)
    (u i : String) (t : Nat) :
    featureCount (castState fid u i t db) g = featureCount db g := by
  unfold featureCount findFeature castState
  simp only [find?_incrementVoteCount]
  cases hf : db.features.find? (fun ft => ft.id == g) with
  | none => rfl
  | some ft =>
    have hid : ft.id = g := by
      have := List.find?_some hf
      simpa using this
    simp [hid, hne]

lemma featureCount_withdrawState_self {db : DB} {fid : String} {ft : Feature}
    (hf : findFeature db fid = some ft) (voteId : String) :
    featureCount (withdrawState fid voteId db) fid = some (ft.voteCount - 1) := by
  have hid : ft.id = fid := by
    have := List.find?_some hf
    simpa using this
  unfold featureCount findFeature withdrawState
  simp only [find?_decrementVoteCount]
  unfold findFeature at hf
  rw [hf]
  simp [hid]

lemma votesFor_castState (db : DB) (fid u i : String) (t : Nat) (g : String) :
    votesFor (castState fid u i t db) g =
      votesFor db g + (if fid = g then 1 else 0) := by
  by_cases hg : fid = g <;>
    simp [votesFor, castState, List.filter_cons, hg]

lemma pairVotes_castState_of_none {db : DB} {u fid : String}
    (h : findVote db u fid = none) (i : String) (t : Nat) :
    pairVotes (castState fid u i t db) u fid = 1 := by
  have hnil : db.votes.filter (fun v => v.userUuid == u && v.featureId == fid) = [] := by
    rw [List.filter_eq_nil_iff]
    intro v hv
    exact List.find?_eq_none.mp h v hv
  simp [pairVotes, castState, List.filter_cons, hnil]

lemma length_filter_of_erase_id (votes : List VotedUser) (v : VotedUser)
    (p : VotedUser → Bool) (hmem : v ∈ votes)
    (hnd : (votes.map (fun w => w.id)).Nodup) :
    (votes.filter p).length =
      ((votes.filter (fun w => !(w.id == v.id))).filter p).length +
        (if p v then 1 else 0) := by
  induction votes with
  | nil => cases hmem
  | cons w rest ih =>
    rw [List.map_cons, List.nodup_cons] at hnd
    by_cases hw : w.id = v.id
    · have hvw : v = w := by
        rcases List.mem_cons.mp hmem with h | h
        · exact h
        · exact absurd (hw ▸ List.mem_map_of_mem (fun x => x.id) h) hnd.1
      subst hvw
      have hrest : rest.filter (fun x => !(x.id == v.id)) = rest := by
        apply List.filter_eq_self.mpr
        intro x hx
        have : x.id ≠ v.id := fun hxx => hnd.1 (hxx ▸ List.mem_map_of_mem (fun y => y.id) hx)
        simpa using this
      by_cases hp : p v <;>
        simp [List.filter_cons, hp, hrest]
    · have hvrest : v ∈ rest := by
        rcases List.mem_cons.mp hmem with h | h
        · exact absurd (congrArg (fun x => x.id) h.symm) hw
        · exact h
      have hrec := ih hvrest hnd.2
      by_cases hp : p w
      · simp [List.filter_cons, hw, hp, hrec]
        omega
      · simp [List.filter_cons, hw, hp, hrec]

lemma map_id_incrementVoteCount (fid : String) (fs : List Feature) :
    (incrementVoteCount fid fs).map (fun ft => ft.id) = fs.map (fun ft => ft.id) := by
  unfold incrementVoteCount
  rw [List.map_map]
  apply List.map_congr_left
  intro ft _
  by_cases hc : ft.id = fid <;> simp [hc]

lemma map_id_decrementVoteCount (fid : String) (fs : List Feature) :
    (decrementVoteCount fid fs).map (fun ft => ft.id) = fs.map (fun ft => ft.id) := by
  unfold decrementVoteCount
  rw [List.map_map]
  apply List.map_congr_left
  intro ft _
  by_cases hc : ft.id = fid <;> simp [hc]

lemma txCastCommit_eq_none_of_stale {db : DB} {fid u i : String} {t : Nat}
    (hst : ∃ v ∈ db.votes, v.id = i) :
    txCastCommit fid u i t db = none := by
  have hany : db.votes.any (fun v => v.id == i) = true := by
    rw [List.any_eq_true]
    obtain ⟨v, hv, hi⟩ := hst
    exact ⟨v, hv, by simpa using hi⟩
  unfold txCastCommit
  rw [hany]
  rfl

lemma POST_internal_eq {db : DB} {fid u i : String} {t : Nat} {ft : Feature}
    (hval : isValidUuid u = true)
    (hf : findFeature db fid = some ft)
    (hv : findVote db u fid = none)
    (htx : txCastCommit fid u i t db = none) :
    VoteRoute.POST fid u i t db = (.err 500 .INTERNAL_ERROR, db) := by
  unfold VoteRoute.POST
  rw [hval, hf, hv, htx]
  rfl

lemma storeInv_castState {db : DB} {fid u i : String} {t : Nat} {ft : Feature}
    (h : StoreInv db)
    (hval : isValidUuid u = true)
    (_hf : findFeature db fid = some ft)
    (hnone : findVote db u fid = none)
    (hfresh : ∀ v ∈ db.votes, v.id ≠ i) :
    StoreInv (castState fid u i t db) := by
  obtain ⟨hfid, hvid, hpair, hok, hcnt⟩ := h
  refine ⟨?_, ?_, ?_, ?_, ?_⟩
  · simpa [castState, map_id_incrementVoteCount] using hfid
  · rw [castState, List.map_cons, List.nodup_cons]
    refine ⟨?_, hvid⟩
    intro hmem
    obtain ⟨v, hv, hvi⟩ := List.mem_map.mp hmem
    exact hfresh v hv hvi
  · rw [castState, List.map_cons, List.nodup_cons]
    refine ⟨?_, hpair⟩
    intro hmem
    obtain ⟨v, hv, hvp⟩ := List.mem_map.mp hmem
    have := List.find?_eq_none.mp hnone v hv
    have h1 : v.userUuid = u := congrArg Prod.fst hvp
    have h2 : v.featureId = fid := congrArg Prod.snd hvp
    simp [h1, h2] at this
  · intro v hv
    rcases List.mem_cons.mp hv with hh | hh
    · rw [hh]
      exact hval
    · exact hok v hh
  · intro ft' hft'
    obtain ⟨ft0, hft0, heq⟩ := List.mem_map.mp hft'
    have hvv : votesFor (castState fid u i t db) ft0.id =
        votesFor db ft0.id + (if fid = ft0.id then 1 else 0) :=
      votesFor_castState db fid u i t ft0.id
    by_cases hc : ft0.id = fid
    · have heq' : ft' = { ft0 with voteCount := ft0.voteCount + 1 } := by
        rw [← heq]
        simp [hc]
      rw [heq']
      show ft0.voteCount + 1 = ((votesFor (castState fid u i t db) ft0.id : Nat) : Int)
      rw [hvv, if_pos hc.symm, hcnt ft0 hft0]
      push_cast
      ring
    · have heq' : ft' = ft0 := by
        rw [← heq]
        simp [hc]
      rw [heq']
      show ft0.voteCount = ((votesFor (castState fid u i t db) ft0.id : Nat) : Int)
      rw [hvv, if_neg (fun hh => hc hh.symm), hcnt ft0 hft0]
      simp

lemma storeInv_withdrawState {db : DB} {fid u : String} {v : VotedUser} {ft : Feature}
    (h : StoreInv db)
    (hv : findVote db u fid = some v)
    (_hf : findFeature db fid = some ft) :
    StoreInv (withdrawState fid v.id db) := by
  obtain ⟨hfid, hvid, hpair, hok, hcnt⟩ := h
  obtain ⟨hmem, hu, hfidv⟩ := vote_mem_of_findVote hv
  have hsub : (db.votes.filter (fun w => !(w.id == v.id))).Sublist db.votes :=
    List.filter_sublist db.votes
  refine ⟨?_, ?_, ?_, ?_, ?_⟩
  · simpa [withdrawState, map_id_decrementVoteCount] using hfid
  · exact ((hsub.map (fun w => w.id)).nodup hvid : _)
  · exact ((hsub.map (fun w => (w.userUuid, w.featureId))).nodup hpair : _)
  · intro w hw
    exact hok w (List.mem_of_mem_filter hw)
  · intro ft' hft'
    obtain ⟨ft0, hft0, heq⟩ := List.mem_map.mp hft'
    have hkey := length_filter_of_erase_id db.votes v
      (fun w => w.featureId == ft0.id) hmem hvid
    by_cases hc : ft0.id = fid
    · have heq' : ft' = { ft0 with voteCount := ft0.voteCount - 1 } := by
        rw [← heq]
        simp [hc]
      have hfb : (v.featureId == ft0.id) = true := by
        rw [hfidv, hc]
        exact beq_self_eq_true fid
      simp only [hfb, if_true] at hkey
      have h1 : votesFor db ft0.id =
          votesFor (withdrawState fid v.id db) ft0.id + 1 := hkey
      rw [heq']
      show ft0.voteCount - 1 = ((votesFor (withdrawState fid v.id db) ft0.id : Nat) : Int)
      rw [hcnt ft0 hft0, h1]
      push_cast
      ring
    · have heq' : ft' = ft0 := by
        rw [← heq]
        simp [hc]
      have hfb : (v.featureId == ft0.id) = false := by
        rw [hfidv]
        exact beq_eq_false_iff_ne.mpr (fun hh => hc hh.symm)
      simp only [hfb, Bool.false_eq_true, if_false, Nat.add_zero] at hkey
      have h1 : votesFor db ft0.id =
          votesFor (withdrawState fid v.id db) ft0.id := hkey
      rw [heq']
      show ft0.voteCount = ((votesFor (withdrawState fid v.id db) ft0.id : Nat) : Int)
      rw [hcnt ft0 hft0, h1]

lemma storeInv_applyOp (op : Op) {db : DB} (h : StoreInv db) :
    StoreInv (applyOp op db) := by
  cases op with
  | cast fid u i t =>
    show StoreInv (VoteRoute.POST fid u i t db).2
    cases hval : isValidUuid u with
    | false => rw [POST_validation_eq hval]; exact h
    | true =>
      cases hf : findFeature db fid with
      | none => rw [POST_not_found_eq hval hf]; exact h
      | some ft =>
        cases hv : findVote db u fid with
        | some v => rw [POST_conflict_eq hval hf hv]; exact h
        | none =>
          by_cases hfresh : ∀ w ∈ db.votes, w.id ≠ i
          · rw [POST_success_eq hval hf hv hfresh]
            exact storeInv_castState h hval hf hv hfresh
          · push_neg at hfresh
            rw [POST_internal_eq hval hf hv (txCastCommit_eq_none_of_stale hfresh)]
            exact h
  | withdraw fid u =>
    show StoreInv (VoteRoute.DELETE fid u db).2
    cases hval : isValidUuid u with
    | false => rw [DELETE_validation_eq hval]; exact h
    | true =>
      cases hv : findVote db u fid with
      | none => rw [DELETE_not_found_eq hval hv]; exact h
      | some v =>
        cases hf : findFeature db fid with
        | none => rw [DELETE_orphan_eq hval hv hf]; exact h
        | some ft =>
          rw [DELETE_success_eq hval hv hf]
          exact storeInv_withdrawState h hv hf

lemma storeInv_applyOps (ops : List Op) {db : DB} (h : StoreInv db) :
    StoreInv (applyOps ops db) := by
  induction ops generalizing db with
  | nil => exact h
  | cons op ops ih => exact ih (storeInv_applyOp op h)

lemma findFeature_castState_self {db : DB} {fid : String} {ft : Feature}
    (hf : findFeature db fid = some ft) (u i : String) (t : Nat) :
    findFeature (castState fid u i t db) fid =
      some { ft with voteCount := ft.voteCount + 1 } := by
  have hid : ft.id = fid := by
    have := List.find?_some hf
    simpa using this
  unfold findFeature castState
  simp only [find?_incrementVoteCount]
  unfold findFeature at hf
  rw [hf]
  simp [hid]

lemma findVote_roundtrip_none {db : DB} {fid u : String}
    (hnone : findVote db u fid = none) (i : String) (t : Nat) :
    findVote (withdrawState fid i (castState fid u i t db)) u fid = none := by
  unfold findVote withdrawState castState
  rw [List.find?_eq_none]
  intro w hw
  have hw' := List.mem_filter.mp hw
  rcases List.mem_cons.mp hw'.1 with hh | hh
  · exfalso
    have := hw'.2
    rw [hh] at this
    simp at this
  · exact List.find?_eq_none.mp hnone w hh

lemma castPre_of_none {db : DB} {fid u : String}
    (h : findVote db u fid = none) : castPre fid u db = false := by
  simp [castPre, h]

lemma castPre_castState (db : DB) (fid u i : String) (t : Nat) :
    castPre fid u (castState fid u i t db) = true := by
  simp [castPre, findVote_castState_self]

lemma castFinish_conflict (fid u i : String) (t : Nat) (db : DB) :
    castFinish fid u i t true db = (.err 409 .ALREADY_VOTED, db) := rfl

lemma castFinish_commit (fid u i : String) (t : Nat) {db : DB} {ft : Feature}
    (hfresh : ∀ v ∈ db.votes, v.id ≠ i)
    (hnone : findVote db u fid = none)
    (hf : findFeature db fid = some ft) :
    castFinish fid u i t false db =
      (.ok 201 ⟨i, u, fid, t⟩, castState fid u i t db) := by
  simp [castFinish, txCastCommit_eq_some hfresh hnone hf]

lemma castFinish_constraint (fid u i : String) (t : Nat) {db : DB} {v : VotedUser}
    (hv : findVote db u fid = some v) :
    castFinish fid u i t false db = (.err 500 .INTERNAL_ERROR, db) := by
  simp [castFinish, txCastCommit_eq_none_of_vote hv]

lemma POST_cases (db : DB) (fid u i : String) (t : Nat) :
    ((VoteRoute.POST fid u i t db).2 = db ∧
      isOk (VoteRoute.POST fid u i t db).1 = false) ∨
    (∃ ft, isValidUuid u = true ∧ findFeature db fid = some ft ∧
      findVote db u fid = none ∧ (∀ v ∈ db.votes, v.id ≠ i) ∧
      VoteRoute.POST fid u i t db =
        (.ok 201 ⟨i, u, fid, t⟩, castState fid u i t db)) := by
  cases hval : isValidUuid u with
  | false => exact Or.inl (by rw [POST_validation_eq hval]; exact ⟨rfl, rfl⟩)
  | true =>
    cases hf : findFeature db fid with
    | none => exact Or.inl (by rw [POST_not_found_eq hval hf]; exact ⟨rfl, rfl⟩)
    | some ft =>
      cases hv : findVote db u fid with
      | some v => exact Or.inl (by rw [POST_conflict_eq hval hf hv]; exact ⟨rfl, rfl⟩)
      | none =>
        by_cases hfresh : ∀ w ∈ db.votes, w.id ≠ i
        · exact Or.inr ⟨ft, rfl, rfl, rfl, hfresh, POST_success_eq hval hf hv hfresh⟩
        · push_neg at hfresh
          exact Or.inl
            (by rw [POST_internal_eq hval hf hv (txCastCommit_eq_none_of_stale hfresh)]
                exact ⟨rfl, rfl⟩)

lemma DELETE_cases (db : DB) (fid u : String) :
    ((VoteRoute.DELETE fid u db).2 = db ∧
      ∃ n c, (VoteRoute.DELETE fid u db).1 = .err n c) ∨
    (∃ v ft, isValidUuid u = true ∧ findVote db u fid = some v ∧
      findFeature db fid = some ft ∧
      VoteRoute.DELETE fid u db =
        (.ok 200 "Vote withdrawn successfully", withdrawState fid v.id db)) := by
  cases hval : isValidUuid u with
  | false =>
    exact Or.inl (by rw [DELETE_validation_eq hval]; exact ⟨rfl, 400, .VALIDATION_ERROR, rfl⟩)
  | true =>
    cases hv : findVote db u fid with
    | none =>
      exact Or.inl (by rw [DELETE_not_found_eq hval hv]; exact ⟨rfl, 404, .VOTE_NOT_FOUND, rfl⟩)
    | some v =>
      cases hf : findFeature db fid with
      | none =>
        exact Or.inl (by rw [DELETE_orphan_eq hval hv hf]; exact ⟨rfl, 500, .INTERNAL_ERROR, rfl⟩)
      | some ft =>
        exact Or.inr ⟨v, ft, rfl, rfl, rfl, DELETE_success_eq hval hv hf⟩

/-- A well-formed client uuid used in the concrete store states below. -/
def uuidU1 : String := "11111111-1111-1111-8111-111111111111"

/-- A concrete feature row with no votes. -/
def featureF1 : Feature :=
  ⟨"f1", "Dark mode", "Add a dark theme", "planned", none, 0, 0, 0⟩

/-- A concrete store: one feature, empty ledger. -/
def dbStart : DB := ⟨[featureF1], []⟩

/-- A concrete store whose only ledger entry is orphaned: its feature was
deleted out-of-band after the vote was cast. -/
def dbOrphan : DB := ⟨[], [⟨"v1", uuidU1, "f1", 5⟩]⟩

/-- A concrete store where uuidU1 has already voted for feature f1. -/
def dbVoted : DB :=
  ⟨[{ featureF1 with voteCount := 1 }], [⟨"v1", uuidU1, "f1", 3⟩]⟩

/-- C1 (amended): under every interleaving of two concurrent casts for the
same (featureId, userUuid) pair against a store holding the feature and no
vote for the pair, exactly one call succeeds, exactly one ledger entry
exists afterwards and the counter is incremented exactly once (this much
the store-level unique constraint guarantees); the losing call receives
409 ALREADY_VOTED when its pre-check saw the committed vote, but 500
INTERNAL_ERROR when the unique constraint aborted its transaction — not
every losing call receives 409. -/
theorem C1_concurrent_casts (s : Sched) (db : DB) (fid u ia ib : String)
    (ta tb : Nat) (ft : Feature)
    (hf : findFeature db fid = some ft)
    (hnone : findVote db u fid = none)
    (hia : ∀ v ∈ db.votes, v.id ≠ ia)
    (hib : ∀ v ∈ db.votes, v.id ≠ ib) :
    ((isOk (runTwo fid u ia ib ta tb s db).1 = true ∧
        losing (runTwo fid u ia ib ta tb s db).2.1) ∨
      (isOk (runTwo fid u ia ib ta tb s db).2.1 = true ∧
        losing (runTwo fid u ia ib ta tb s db).1)) ∧
    pairVotes (runTwo fid u ia ib ta tb s db).2.2 u fid = 1 ∧
    featureCount (runTwo fid u ia ib ta tb s db).2.2 fid =
      some (ft.voteCount + 1) := by
  cases s with
  | AABB =>
    simp only [runTwo, castPre_of_none hnone,
      castFinish_commit fid u ia ta hia hnone hf, castPre_castState,
      castFinish_conflict]
    exact ⟨Or.inl ⟨rfl, Or.inl rfl⟩, pairVotes_castState_of_none hnone ia ta,
      featureCount_castState_self hf u ia ta⟩
  | ABAB =>
    simp only [runTwo, castPre_of_none hnone,
      castFinish_commit fid u ia ta hia hnone hf,
      castFinish_constraint fid u ib tb (findVote_castState_self db fid u ia ta)]
    exact ⟨Or.inl ⟨rfl, Or.inr rfl⟩, pairVotes_castState_of_none hnone ia ta,
      featureCount_castState_self hf u ia ta⟩
  | ABBA =>
    simp only [runTwo, castPre_of_none hnone,
      castFinish_commit fid u ib tb hib hnone hf,
      castFinish_constraint fid u ia ta (findVote_castState_self db fid u ib tb)]
    exact ⟨Or.inr ⟨rfl, Or.inr rfl⟩, pairVotes_castState_of_none hnone ib tb,
      featureCount_castState_self hf u ib tb⟩
  | BBAA =>
    simp only [runTwo, castPre_of_none hnone,
      castFinish_commit fid u ib tb hib hnone hf, castPre_castState,
      castFinish_conflict]
    exact ⟨Or.inr ⟨rfl, Or.inl rfl⟩, pairVotes_castState_of_none hnone ib tb,
      featureCount_castState_self hf u ib tb⟩
  | BABA =>
    simp only [runTwo, castPre_of_none hnone,
      castFinish_commit fid u ib tb hib hnone hf,
      castFinish_constraint fid u ia ta (findVote_castState_self db fid u ib tb)]
    exact ⟨Or.inr ⟨rfl, Or.inr rfl⟩, pairVotes_castState_of_none hnone ib tb,
      featureCount_castState_self hf u ib tb⟩
  | BAAB =>
    simp only [runTwo, castPre_of_none hnone,
      castFinish_commit fid u ia ta hia hnone hf,
      castFinish_constraint fid u ib tb (findVote_castState_self db fid u ia ta)]
    exact ⟨Or.inl ⟨rfl, Or.inr rfl⟩, pairVotes_castState_of_none hnone ia ta,
      featureCount_castState_self hf u ia ta⟩

/-- C1 witness: the amended theorem applied to a concrete store, feature
and schedule. -/
theorem C1_concurrent_casts_witness :
    pairVotes (runTwo "f1" uuidU1 "va" "vb" 1 2 .ABAB dbStart).2.2 uuidU1 "f1" = 1 :=
  (C1_concurrent_casts .ABAB dbStart "f1" uuidU1 "va" "vb" 1 2 featureF1
    (by decide) (by decide) (by decide) (by decide)).2.1

/-- C1 counterexample: under the interleaving where both pre-checks run
before either commit, the race loser receives 500 INTERNAL_ERROR, not
409 ALREADY_VOTED, refuting the claim that every losing call receives
Conflict/ALREADY_VOTED. -/
theorem C1_counterexample :
    isOk (runTwo "f1" uuidU1 "va" "vb" 1 2 .ABAB dbStart).1 = true ∧
    (runTwo "f1" uuidU1 "va" "vb" 1 2 .ABAB dbStart).2.1 = .err 500 .INTERNAL_ERROR ∧
    (runTwo "f1" uuidU1 "va" "vb" 1 2 .ABAB dbStart).2.1 ≠ .err 409 .ALREADY_VOTED := by
  decide

lemma featureCount_withdrawState_other {db : DB} {fid g : String} (hne : g ≠ fid)
    (voteId : String) :
    featureCount (withdrawState fid voteId db) g = featureCount db g := by
  unfold featureCount findFeature withdrawState
  simp only [find?_decrementVoteCount]
  cases hf : db.features.find? (fun ft => ft.id == g) with
  | none => rfl
  | some ft =>
    have hid : ft.id = g := by
      have := List.find?_some hf
      simpa using this
    simp [hid, hne]

/-- C2: starting from any well-formed store, after any sequence of
completed cast and withdraw operations every feature's voteCount equals
the number of ledger entries referencing it; a successful cast changes the
target feature's ledger cardinality and counter by exactly +1, a
successful withdraw by exactly -1, a failed operation changes nothing, and
no operation touches any other feature's counter (counters only ever move
by the delta of their own ledger — never to an absolute value). -/
theorem C2_counter_consistency :
    (∀ db : DB, StoreInv db → ∀ ops : List Op, consistent (applyOps ops db)) ∧
    (∀ db : DB, ∀ fid u i : String, ∀ t : Nat,
      (isOk (VoteRoute.POST fid u i t db).1 = true →
        votesFor (VoteRoute.POST fid u i t db).2 fid = votesFor db fid + 1 ∧
        featureCount (VoteRoute.POST fid u i t db).2 fid =
          (featureCount db fid).map (fun c => c + 1)) ∧
      (isOk (VoteRoute.POST fid u i t db).1 = false →
        (VoteRoute.POST fid u i t db).2 = db) ∧
      (∀ g, g ≠ fid →
        featureCount (VoteRoute.POST fid u i t db).2 g = featureCount db g)) ∧
    (∀ db : DB, ∀ fid u : String, StoreInv db →
      ((VoteRoute.DELETE fid u db).1 = .ok 200 "Vote withdrawn successfully" →
        votesFor db fid = votesFor (VoteRoute.DELETE fid u db).2 fid + 1 ∧
        featureCount (VoteRoute.DELETE fid u db).2 fid =
          (featureCount db fid).map (fun c => c - 1)) ∧
      ((∃ n c, (VoteRoute.DELETE fid u db).1 = .err n c) →
        (VoteRoute.DELETE fid u db).2 = db) ∧
      (∀ g, g ≠ fid →
        featureCount (VoteRoute.DELETE fid u db).2 g = featureCount db g)) := by
  refine ⟨?_, ?_, ?_⟩
  · intro db h ops
    exact (storeInv_applyOps ops h).2.2.2.2
  · intro db fid u i t
    rcases POST_cases db fid u i t with ⟨hsnd, hok⟩ | ⟨ft, hval, hf, hv, hfresh, hp⟩
    · refine ⟨?_, fun _ => hsnd, fun g hg => by rw [hsnd]⟩
      intro hk
      rw [hok] at hk
      simp at hk
    · refine ⟨?_, ?_, ?_⟩
      · intro _
        constructor
        · rw [hp]
          show votesFor (castState fid u i t db) fid = votesFor db fid + 1
          rw [votesFor_castState]
          simp
        · rw [hp]
          show featureCount (castState fid u i t db) fid =
            (featureCount db fid).map (fun c => c + 1)
          rw [featureCount_castState_self hf u i t]
          unfold featureCount
          rw [hf]
          rfl
      · intro hk
        rw [hp] at hk
        simp [isOk] at hk
      · intro g hg
        rw [hp]
        show featureCount (castState fid u i t db) g = featureCount db g
        exact featureCount_castState_other hg u i t
  · intro db fid u hinv
    rcases DELETE_cases db fid u with ⟨hsnd, n, c, herr⟩ | ⟨v, ft, hval, hv, hf, hd⟩
    · refine ⟨?_, fun _ => hsnd, fun g hg => by rw [hsnd]⟩
      intro hk
      rw [herr] at hk
      exact WithdrawResponse.noConfusion hk
    · obtain ⟨hmem, hu, hfidv⟩ := vote_mem_of_findVote hv
      refine ⟨?_, ?_, ?_⟩
      · intro _
        constructor
        · rw [hd]
          show votesFor db fid = votesFor (withdrawState fid v.id db) fid + 1
          have hkey := length_filter_of_erase_id db.votes v
            (fun w => w.featureId == fid) hmem hinv.2.1
          have hfb : (v.featureId == fid) = true := by
            rw [hfidv]
            exact beq_self_eq_true fid
          simp only [hfb, if_true] at hkey
          exact hkey
        · rw [hd]
          show featureCount (withdrawState fid v.id db) fid =
            (featureCount db fid).map (fun c => c - 1)
          rw [featureCount_withdrawState_self hf v.id]
          unfold featureCount
          rw [hf]
          rfl
      · intro hex
        obtain ⟨n, c, hk⟩ := hex
        rw [hd] at hk
        exact WithdrawResponse.noConfusion hk
      · intro g hg
        rw [hd]
        show featureCount (withdrawState fid v.id db) g = featureCount db g
        exact featureCount_withdrawState_other hg v.id

/-- C2 witness: the cast-delta part applied to a concrete store. -/
theorem C2_counter_consistency_witness :
    votesFor (VoteRoute.POST "f1" uuidU1 "v1" 1 dbStart).2 "f1" =
      votesFor dbStart "f1" + 1 ∧
    featureCount (VoteRoute.POST "f1" uuidU1 "v1" 1 dbStart).2 "f1" =
      (featureCount dbStart "f1").map (fun c => c + 1) :=
  (C2_counter_consistency.2.1 dbStart "f1" uuidU1 "v1" 1).1 (by decide)

/-- C3: for a well-formed userUuid and an existing feature with no prior
vote by that user (and a fresh generated row id), cast answers 201 whose
success envelope carries the created entry's id, userUuid, featureId and
createdAt, and the single transaction both prepends exactly that ledger
entry and increments the feature's voteCount by exactly 1. -/
theorem C3_cast_created (db : DB) (fid u i : String) (t : Nat) (ft : Feature)
    (hval : isValidUuid u = true)
    (hf : findFeature db fid = some ft)
    (hnone : findVote db u fid = none)
    (hfresh : ∀ v ∈ db.votes, v.id ≠ i) :
    VoteRoute.POST fid u i t db =
      (.ok 201 ⟨i, u, fid, t⟩, castState fid u i t db) ∧
    (VoteRoute.POST fid u i t db).2.votes = ⟨i, u, fid, t⟩ :: db.votes ∧
    featureCount (VoteRoute.POST fid u i t db).2 fid = some (ft.voteCount + 1) := by
  have hp := @POST_success_eq db fid u i t ft hval hf hnone hfresh
  refine ⟨hp, ?_, ?_⟩
  · rw [hp]
    rfl
  · rw [hp]
    exact featureCount_castState_self hf u i t

/-- C3 witness: the theorem applied to a concrete store. -/
theorem C3_cast_created_witness :
    VoteRoute.POST "f1" uuidU1 "v1" 3 dbStart =
      (.ok 201 ⟨"v1", uuidU1, "f1", 3⟩, castState "f1" uuidU1 "v1" 3 dbStart) ∧
    (VoteRoute.POST "f1" uuidU1 "v1" 3 dbStart).2.votes =
      ⟨"v1", uuidU1, "f1", 3⟩ :: dbStart.votes ∧
    featureCount (VoteRoute.POST "f1" uuidU1 "v1" 3 dbStart).2 "f1" =
      some (featureF1.voteCount + 1) :=
  C3_cast_created dbStart "f1" uuidU1 "v1" 3 featureF1
    (by decide) (by decide) (by decide) (by decide)

/-- C4 counterexample: in a store holding an orphaned ledger entry for the
pair (the feature was deleted out-of-band), cast for that pair answers
404 NOT_FOUND, not 409 ALREADY_VOTED, because the feature-existence check
runs before the duplicate-vote check. -/
theorem C4_counterexample :
    findVote dbOrphan uuidU1 "f1" = some ⟨"v1", uuidU1, "f1", 5⟩ ∧
    VoteRoute.POST "f1" uuidU1 "v9" 9 dbOrphan = (.err 404 .NOT_FOUND, dbOrphan) ∧
    (VoteRoute.POST "f1" uuidU1 "v9" 9 dbOrphan).1 ≠ .err 409 .ALREADY_VOTED := by
  decide

/-- C4 (amended): for every pair that already has a ledger entry in a
well-formed store whose feature still exists, cast answers 409
ALREADY_VOTED and performs no mutation (when the feature was deleted
out-of-band the answer is 404 NOT_FOUND instead, also with no mutation). -/
theorem C4_already_voted (db : DB) (fid u i : String) (t : Nat)
    (v : VotedUser) (ft : Feature)
    (hinv : StoreInv db)
    (hv : findVote db u fid = some v)
    (hf : findFeature db fid = some ft) :
    VoteRoute.POST fid u i t db = (.err 409 .ALREADY_VOTED, db) := by
  obtain ⟨hmem, hu, _⟩ := vote_mem_of_findVote hv
  have hval : isValidUuid u = true := by
    have := hinv.2.2.2.1 v hmem
    rwa [hu] at this
  exact POST_conflict_eq hval hf hv

/-- C4 witness: the amended theorem applied to a concrete store. -/
theorem C4_already_voted_witness :
    VoteRoute.POST "f1" uuidU1 "v9" 9 dbVoted = (.err 409 .ALREADY_VOTED, dbVoted) :=
  C4_already_voted dbVoted "f1" uuidU1 "v9" 9 ⟨"v1", uuidU1, "f1", 3⟩
    { featureF1 with voteCount := 1 } (by unfold StoreInv; decide) (by decide) (by decide)

/-- C5: a cast with a syntactically invalid userUuid answers 400
VALIDATION_ERROR, and a cast with a well-formed userUuid for a featureId
that matches no feature answers 404 NOT_FOUND; in both cases the store is
unchanged. -/
theorem C5_cast_preconditions (db : DB) (fid u i : String) (t : Nat) :
    (isValidUuid u = false →
      VoteRoute.POST fid u i t db = (.err 400 .VALIDATION_ERROR, db)) ∧
    (isValidUuid u = true → findFeature db fid = none →
      VoteRoute.POST fid u i t db = (.err 404 .NOT_FOUND, db)) :=
  ⟨fun hval => POST_validation_eq hval,
   fun hval hf => POST_not_found_eq hval hf⟩

/-- C5 witness: both precondition failures on a concrete store. -/
theorem C5_cast_preconditions_witness :
    VoteRoute.POST "f1" "not-a-uuid" "v1" 1 dbStart =
      (.err 400 .VALIDATION_ERROR, dbStart) ∧
    VoteRoute.POST "f2" uuidU1 "v1" 1 dbStart = (.err 404 .NOT_FOUND, dbStart) :=
  ⟨(C5_cast_preconditions dbStart "f1" "not-a-uuid" "v1" 1).1 (by decide),
   (C5_cast_preconditions dbStart "f2" uuidU1 "v1" 1).2 (by decide) (by decide)⟩

lemma findVote_withdrawState_none {db : DB} {fid u : String} {v : VotedUser}
    (hinv : StoreInv db) (hv : findVote db u fid = some v) :
    findVote (withdrawState fid v.id db) u fid = none := by
  obtain ⟨hmem, hu, hfidv⟩ := vote_mem_of_findVote hv
  unfold findVote withdrawState
  rw [List.find?_eq_none]
  intro w hw hpw
  have hw' := List.mem_filter.mp hw
  have hwid : (w.id == v.id) = false := by
    simpa using hw'.2
  have hwp : w.userUuid = u ∧ w.featureId = fid := by simpa using hpw
  have hweq : w = v :=
    List.inj_on_of_nodup_map hinv.2.2.1 hw'.1 hmem
      (by simp [hwp.1, hwp.2, hu, hfidv])
  rw [hweq] at hwid
  simp at hwid

/-- C6: withdrawing when no ledger entry exists for the (featureId,
userUuid) pair answers 404 VOTE_NOT_FOUND and changes nothing; in
particular, after a successful withdraw a second withdraw for the same pair
answers 404 VOTE_NOT_FOUND and leaves the store (hence the voteCount)
unchanged. -/
theorem C6_withdraw_not_found (db : DB) (fid u : String) :
    (isValidUuid u = true → findVote db u fid = none →
      VoteRoute.DELETE fid u db = (.err 404 .VOTE_NOT_FOUND, db)) ∧
    (∀ m : String, ∀ db' : DB, StoreInv db →
      VoteRoute.DELETE fid u db = (.ok 200 m, db') →
      VoteRoute.DELETE fid u db' = (.err 404 .VOTE_NOT_FOUND, db')) := by
  constructor
  · exact fun hval hv => DELETE_not_found_eq hval hv
  · intro m db' hinv hdel
    rcases DELETE_cases db fid u with ⟨hsnd, n, c, herr⟩ | ⟨v, ft, hval, hv, hf, hd⟩
    · rw [hdel] at herr
      exact absurd herr (by simp)
    · have hdb' : db' = withdrawState fid v.id db := by
        have h2 := hdel.symm.trans hd
        simpa using (Prod.mk.injEq _ _ _ _ ▸ h2).2
      rw [hdb']
      exact DELETE_not_found_eq hval (findVote_withdrawState_none hinv hv)

/-- C6 witness: both parts on concrete stores (a pair with no entry, and a
second withdraw right after a successful one). -/
theorem C6_withdraw_not_found_witness :
    VoteRoute.DELETE "f2" uuidU1 dbStart = (.err 404 .VOTE_NOT_FOUND, dbStart) ∧
    VoteRoute.DELETE "f1" uuidU1 dbStart = (.err 404 .VOTE_NOT_FOUND, dbStart) :=
  ⟨(C6_withdraw_not_found dbStart "f2" uuidU1).1 (by decide) (by decide),
   (C6_withdraw_not_found dbVoted "f1" uuidU1).2 "Vote withdrawn successfully"
     dbStart (by unfold StoreInv; decide) (by decide)⟩

/-- C7 counterexample: withdraw for an orphaned ledger entry (its feature
deleted out-of-band) answers 500 INTERNAL_ERROR and the transaction rolls
back, so the orphaned ledger entry is NOT removed — refuting the claim
that withdraw still removes the orphaned entry. -/
theorem C7_counterexample :
    findVote dbOrphan uuidU1 "f1" = some ⟨"v1", uuidU1, "f1", 5⟩ ∧
    findFeature dbOrphan "f1" = none ∧
    VoteRoute.DELETE "f1" uuidU1 dbOrphan = (.err 500 .INTERNAL_ERROR, dbOrphan) := by
  decide

/-- C7 (amended): withdraw for a ledger entry whose feature has been
deleted out-of-band does not crash the handler — the transaction aborts on
the missing feature (Prisma P2025), rolls back, and the route answers the
500 INTERNAL_ERROR envelope — but the orphaned ledger entry stays in the
store untouched. -/
theorem C7_orphan_withdraw (db : DB) (fid u : String) (v : VotedUser)
    (hinv : StoreInv db)
    (hv : findVote db u fid = some v)
    (hf : findFeature db fid = none) :
    VoteRoute.DELETE fid u db = (.err 500 .INTERNAL_ERROR, db) := by
  obtain ⟨hmem, hu, _⟩ := vote_mem_of_findVote hv
  have hval : isValidUuid u = true := by
    have := hinv.2.2.2.1 v hmem
    rwa [hu] at this
  exact DELETE_orphan_eq hval hv hf

/-- C7 witness: the amended theorem applied to the concrete orphaned
store. -/
theorem C7_orphan_withdraw_witness :
    VoteRoute.DELETE "f1" uuidU1 dbOrphan = (.err 500 .INTERNAL_ERROR, dbOrphan) :=
  C7_orphan_withdraw dbOrphan "f1" uuidU1 ⟨"v1", uuidU1, "f1", 5⟩
    (by unfold StoreInv; decide) (by decide) (by decide)

/-- C8: after a successful cast, status for the pair answers hasVoted true
with votedAt equal to the cast's createdAt; the subsequent withdraw for the
pair succeeds, and status then answers hasVoted false with votedAt null. -/
theorem C8_round_trip (db : DB) (fid u i : String) (t : Nat) (ft : Feature)
    (hval : isValidUuid u = true)
    (hf : findFeature db fid = some ft)
    (hnone : findVote db u fid = none)
    (hfresh : ∀ v ∈ db.votes, v.id ≠ i) :
    (VoteStatusRoute.GET fid u (VoteRoute.POST fid u i t db).2).1 =
      .ok 200 ⟨true, some t⟩ ∧
    VoteRoute.DELETE fid u (VoteRoute.POST fid u i t db).2 =
      (.ok 200 "Vote withdrawn successfully",
        withdrawState fid i (VoteRoute.POST fid u i t db).2) ∧
    (VoteStatusRoute.GET fid u
        (VoteRoute.DELETE fid u (VoteRoute.POST fid u i t db).2).2).1 =
      .ok 200 ⟨false, none⟩ := by
  have hp := @POST_success_eq db fid u i t ft hval hf hnone hfresh
  have hsnd : (VoteRoute.POST fid u i t db).2 = castState fid u i t db := by
    rw [hp]
  rw [hsnd]
  have hv1 := findVote_castState_self db fid u i t
  have hf1 := findFeature_castState_self hf u i t
  have hdel := DELETE_success_eq hval hv1 hf1
  refine ⟨?_, hdel, ?_⟩
  · simp only [VoteStatusRoute.GET, hv1]
    rfl
  · rw [hdel]
    show (VoteStatusRoute.GET fid u
        (withdrawState fid i (castState fid u i t db))).1 = .ok 200 ⟨false, none⟩
    simp only [VoteStatusRoute.GET, findVote_roundtrip_none hnone i t]
    rfl

/-- C8 witness: the round trip on a concrete store. -/
theorem C8_round_trip_witness :
    (VoteStatusRoute.GET "f1" uuidU1 (VoteRoute.POST "f1" uuidU1 "v1" 7 dbStart).2).1 =
      .ok 200 ⟨true, some 7⟩ ∧
    VoteRoute.DELETE "f1" uuidU1 (VoteRoute.POST "f1" uuidU1 "v1" 7 dbStart).2 =
      (.ok 200 "Vote withdrawn successfully",
        withdrawState "f1" "v1" (VoteRoute.POST "f1" uuidU1 "v1" 7 dbStart).2) ∧
    (VoteStatusRoute.GET "f1" uuidU1
        (VoteRoute.DELETE "f1" uuidU1 (VoteRoute.POST "f1" uuidU1 "v1" 7 dbStart).2).2).1 =
      .ok 200 ⟨false, none⟩ :=
  C8_round_trip dbStart "f1" uuidU1 "v1" 7 featureF1
    (by decide) (by decide) (by decide) (by decide)

/-- C9 counterexample: status for a deleted feature that still has an
orphaned ledger entry answers 200 with hasVoted true and the entry's
timestamp — not hasVoted false with votedAt null as the claim states. -/
theorem C9_counterexample :
    findFeature dbOrphan "f1" = none ∧
    (VoteStatusRoute.GET "f1" uuidU1 dbOrphan).1 = .ok 200 ⟨true, some 5⟩ ∧
    (VoteStatusRoute.GET "f1" uuidU1 dbOrphan).1 ≠ .ok 200 ⟨false, none⟩ := by
  decide

/-- C9 (amended): status is read-only (the store is returned unchanged),
its answer never depends on the features table at all — so a deleted or
never-existing feature is not an error — and it answers 200 with hasVoted
false and votedAt null exactly when no ledger entry matches the pair (an
orphaned entry of a deleted feature still answers hasVoted true). -/
theorem C9_status_forgiving (db : DB) (fid u : String) :
    (VoteStatusRoute.GET fid u db).2 = db ∧
    (∀ fs : List Feature,
      (VoteStatusRoute.GET fid u { db with features := fs }).1 =
        (VoteStatusRoute.GET fid u db).1) ∧
    (findVote db u fid = none →
      (VoteStatusRoute.GET fid u db).1 = .ok 200 ⟨false, none⟩) := by
  refine ⟨rfl, fun fs => rfl, fun h => ?_⟩
  simp only [VoteStatusRoute.GET, h]
  rfl

/-- C9 witness: status for a feature id that matches no feature. -/
theorem C9_status_forgiving_witness :
    (VoteStatusRoute.GET "f9" uuidU1 dbStart).1 = .ok 200 ⟨false, none⟩ :=
  (C9_status_forgiving dbStart "f9" uuidU1).2.2 (by decide)

/-- C10: status performs no syntactic validation of the userUuid path
segment: for every string, including ones that are not well-formed UUIDs,
it never answers an error envelope (in particular never VALIDATION_ERROR);
its answer is always 200 with exactly the ledger lookup's outcome, and
when no entry matches it answers hasVoted false with votedAt null. -/
theorem C10_status_no_validation (db : DB) (fid u : String) :
    (∀ n : Nat, ∀ c : ErrorCode, (VoteStatusRoute.GET fid u db).1 ≠ .err n c) ∧
    ((VoteStatusRoute.GET fid u db).1 =
      .ok 200 ⟨(findVote db u fid).isSome,
        (findVote db u fid).map (fun v => v.createdAt)⟩) ∧
    (findVote db u fid = none →
      (VoteStatusRoute.GET fid u db).1 = .ok 200 ⟨false, none⟩) := by
  refine ⟨?_, rfl, fun h => ?_⟩
  · intro n c hk
    simp [VoteStatusRoute.GET] at hk
  · simp only [VoteStatusRoute.GET, h]
    rfl

/-- C10 witness: status queried with a malformed userUuid still answers
the 200 envelope with hasVoted false. -/
theorem C10_status_no_validation_witness :
    (VoteStatusRoute.GET "f1" "not-a-uuid" dbStart).1 = .ok 200 ⟨false, none⟩ :=
  (C10_status_no_validation dbStart "f1" "not-a-uuid").2.2 (by decide)
